import Mathlib

/-!
Shallow embedding of the gerritbot event-ingestion core
(`gerritbot-spark/src/lib.rs` and `src/main.rs`) together with proofs of the
specified properties: RFC3339 timestamp (de)serialization, webhook
registration convergence, the webhook HTTP listener validation, the
self-filter / hydration pipeline and the main fold loop.
-/

namespace Spark

/-! ### Timestamps (chrono `DateTime<Utc>` carrier, RFC3339 text form)

The Rust code stores timestamps as `chrono::DateTime<chrono::Utc>`:
a proleptic-Gregorian calendar date plus a time of day (with chrono's
leap-second convention, here kept as a `second` field in `0..=60`) and a
nanosecond fraction.  `deserialize_timestamp` parses RFC3339 text with
`chrono::DateTime::parse_from_rfc3339` and converts to UTC with
`with_timezone(&Utc)`; `serialize_timestamp` prints with `to_rfc3339`. -/

structure NaiveDateTime where
  year : Int
  month : Nat
  day : Nat
  hour : Nat
  minute : Nat
  second : Nat
  nano : Nat
deriving DecidableEq, Repr

/-- Proleptic Gregorian leap year, as chrono computes it. -/
def isLeapYear (y : Int) : Bool :=
  y % 4 == 0 && (y % 100 != 0 || y % 400 == 0)

/-- Number of days of month `m` (1-12) of year `y`; 0 for out-of-range months. -/
def daysInMonth (y : Int) (m : Nat) : Nat :=
  match m with
  | 1 => 31
  | 2 => if isLeapYear y then 29 else 28
  | 3 => 31
  | 4 => 30
  | 5 => 31
  | 6 => 30
  | 7 => 31
  | 8 => 31
  | 9 => 30
  | 10 => 31
  | 11 => 30
  | 12 => 31
  | _ => 0

/-- The calendar day before `(y, m, d)`. -/
def prevDay (y : Int) (m d : Nat) : Int × Nat × Nat :=
  if 1 < d then (y, m, d - 1)
  else if 1 < m then (y, m - 1, daysInMonth y (m - 1))
  else (y - 1, 12, 31)

/-- The calendar day after `(y, m, d)`. -/
def nextDay (y : Int) (m d : Nat) : Int × Nat × Nat :=
  if d < daysInMonth y m then (y, m, d + 1)
  else if m < 12 then (y, m + 1, 1)
  else (y + 1, 1, 1)

/-- Subtract a timezone offset (in minutes, `|off| < 1440`) from a local
date-time, producing the UTC date-time denoting the same instant.  This is
chrono's `with_timezone(&Utc)` on a freshly parsed `DateTime<FixedOffset>`:
the naive local time minus the offset, with at most one day of borrow/carry
since offsets are smaller than a day. -/
def subOffsetMinutes (t : NaiveDateTime) (off : Int) : NaiveDateTime :=
  let tot : Int := (t.hour : Int) * 60 + (t.minute : Int) - off
  if tot < 0 then
    let p := prevDay t.year t.month t.day
    let r := (tot + 1440).toNat
    ⟨p.1, p.2.1, p.2.2, r / 60, r % 60, t.second, t.nano⟩
  else if tot < 1440 then
    let r := tot.toNat
    ⟨t.year, t.month, t.day, r / 60, r % 60, t.second, t.nano⟩
  else
    let p := nextDay t.year t.month t.day
    let r := (tot - 1440).toNat
    ⟨p.1, p.2.1, p.2.2, r / 60, r % 60, t.second, t.nano⟩

/-- Validity of the carrier, exactly the values chrono's `NaiveDate` /
`NaiveTime` can represent for a parsed RFC3339 date-time (`second = 60`
is chrono's leap-second representation). -/
def NaiveDateTime.isValid (t : NaiveDateTime) : Bool :=
  1 ≤ t.month && t.month ≤ 12 && 1 ≤ t.day && t.day ≤ daysInMonth t.year t.month &&
    t.hour ≤ 23 && t.minute ≤ 59 && t.second ≤ 60 && t.nano < 1000000000

/-! #### Decimal digit printing and scanning -/

def digitChar (d : Nat) : Char := Char.ofNat (48 + d)

def digitVal? (c : Char) : Option Nat :=
  if '0' ≤ c ∧ c ≤ '9' then some (c.toNat - 48) else none

/-- The `k` decimal digits of `v < 10^k`, most significant first. -/
def padList : Nat → Nat → List Nat
  | 0, _ => []
  | k + 1, v => v / 10 ^ k :: padList k (v % 10 ^ k)

/-- Zero-padded `k`-digit decimal representation of `v`. -/
def padDigits (k v : Nat) : List Char := (padList k v).map digitChar

/-- All decimal digits of `v` (no padding), for out-of-range years. -/
def natDigits (v : Nat) : List Char :=
  if _h : v < 10 then [digitChar v]
  else natDigits (v / 10) ++ [digitChar (v % 10)]
termination_by v
decreasing_by exact Nat.div_lt_self (by omega) (by omega)

/-- chrono's `%Y`: zero-padded to 4 digits, explicit sign outside 0..=9999. -/
def printYear (y : Int) : List Char :=
  if 0 ≤ y ∧ y ≤ 9999 then padDigits 4 y.toNat
  else if y < 0 then
    '-' :: (if -y ≤ 9999 then padDigits 4 (-y).toNat else natDigits (-y).toNat)
  else '+' :: natDigits y.toNat

/-- chrono's `%.f`: empty for zero nanoseconds, otherwise `.` followed by
3, 6 or 9 digits depending on trailing zeros. -/
def printFrac (n : Nat) : List Char :=
  if n = 0 then []
  else if n % 1000000 = 0 then '.' :: padDigits 3 (n / 1000000)
  else if n % 1000 = 0 then '.' :: padDigits 6 (n / 1000)
  else '.' :: padDigits 9 n

/-- chrono's `to_rfc3339` on a UTC date-time: the offset suffix is always
`+00:00` (`use_z = false`). -/
def printRFC3339 (t : NaiveDateTime) : List Char :=
  printYear t.year ++ ('-' :: padDigits 2 t.month) ++ ('-' :: padDigits 2 t.day) ++
    ('T' :: padDigits 2 t.hour) ++ (':' :: padDigits 2 t.minute) ++
    (':' :: padDigits 2 t.second) ++ printFrac t.nano ++
    ('+' :: '0' :: '0' :: ':' :: '0' :: '0' :: [])

def expectChar (c : Char) : List Char → Option (List Char)
  | x :: xs => if x = c then some xs else none
  | [] => none

/-- Scan exactly `k` decimal digits (chrono's `scan::number(s, k, k)`). -/
def parseDigitsAux : Nat → Nat → List Char → Option (Nat × List Char)
  | 0, acc, cs => some (acc, cs)
  | k + 1, acc, c :: cs =>
    match digitVal? c with
    | some d => parseDigitsAux k (acc * 10 + d) cs
    | none => none
  | _ + 1, _, [] => none

def parseDigits (k : Nat) (cs : List Char) : Option (Nat × List Char) :=
  parseDigitsAux k 0 cs

/-- Take all leading decimal digits. -/
def takeDigits : List Char → List Nat × List Char
  | c :: cs =>
    match digitVal? c with
    | some d => let p := takeDigits cs; (d :: p.1, p.2)
    | none => ([], c :: cs)
  | [] => ([], [])

def digitsVal (ds : List Nat) : Nat := ds.foldl (fun a d => a * 10 + d) 0

/-- chrono's `scan::nanosecond`: the first (up to 9) fraction digits scaled
to nanoseconds; further digits are consumed and ignored. -/
def fracValue (ds : List Nat) : Nat :=
  digitsVal (ds.take 9) * 10 ^ (9 - min 9 ds.length)

/-- Fraction scanner: at least one digit after the `.`. -/
def parseNanos (cs : List Char) : Option (Nat × List Char) :=
  let p := takeDigits cs
  if p.1.isEmpty then none else some (fracValue p.1, p.2)

/-- The optional fraction: consumed only when a `.` follows the seconds. -/
def parseFracStep (cs : List Char) : Option (Nat × List Char) :=
  match cs with
  | '.' :: cs' => parseNanos cs'
  | _ => some (0, cs)

/-- The date/time separator: `T` or `t`. -/
def expectT : List Char → Option (List Char)
  | c :: cs => if c = 'T' ∨ c = 't' then some cs else none
  | [] => none

/-- chrono's `scan::timezone_offset_zulu` for RFC3339: `Z`/`z`, or `±HH:MM`
with the total below one day (the `FixedOffset` bound), in minutes. -/
def parseOffset (cs : List Char) : Option (Int × List Char) :=
  match cs with
  | [] => none
  | c :: rest =>
    if c = 'Z' ∨ c = 'z' then some (0, rest)
    else if c = '+' ∨ c = '-' then
      (parseDigits 2 rest).bind fun (hh, rest) =>
      (expectChar ':' rest).bind fun rest =>
      (parseDigits 2 rest).bind fun (mm, rest) =>
      if hh * 60 + mm < 1440 then
        some (if c = '+' then ((hh * 60 + mm : Nat) : Int)
              else -((hh * 60 + mm : Nat) : Int), rest)
      else none
    else none

/-- The `full-date` part: `YYYY-MM-DD`. -/
def parseDate (cs : List Char) : Option ((Nat × Nat × Nat) × List Char) :=
  (parseDigits 4 cs).bind fun (y, cs) =>
  (expectChar '-' cs).bind fun cs =>
  (parseDigits 2 cs).bind fun (mo, cs) =>
  (expectChar '-' cs).bind fun cs =>
  (parseDigits 2 cs).bind fun (d, cs) =>
  some ((y, mo, d), cs)

/-- The `partial-time` part without fraction: `HH:MM:SS`. -/
def parseTime (cs : List Char) : Option ((Nat × Nat × Nat) × List Char) :=
  (parseDigits 2 cs).bind fun (h, cs) =>
  (expectChar ':' cs).bind fun cs =>
  (parseDigits 2 cs).bind fun (mi, cs) =>
  (expectChar ':' cs).bind fun cs =>
  (parseDigits 2 cs).bind fun (sec, cs) =>
  some ((h, mi, sec), cs)

/-- chrono's `DateTime::parse_from_rfc3339`: local calendar fields plus the
offset in minutes, with chrono's validity checks; the whole input must be
consumed (serde hands the parser the complete string). -/
def parseRFC3339 (cs : List Char) : Option (NaiveDateTime × Int) :=
  (parseDate cs).bind fun (ymd, cs) =>
  (expectT cs).bind fun cs =>
  (parseTime cs).bind fun (hms, cs) =>
  (parseFracStep cs).bind fun (nano, cs) =>
  (parseOffset cs).bind fun (off, cs) =>
  let t : NaiveDateTime := ⟨(ymd.1 : Int), ymd.2.1, ymd.2.2, hms.1, hms.2.1, hms.2.2, nano⟩
  if cs = [] ∧ t.isValid then some (t, off) else none

/-- `deserialize_timestamp`: parse RFC3339, then normalize to UTC
(`with_timezone(&Utc)`). -/
def deserialize_timestamp (s : String) : Option NaiveDateTime :=
  (parseRFC3339 s.toList).map (fun p => subOffsetMinutes p.1 p.2)

/-- `serialize_timestamp`: `to_rfc3339` of the UTC date-time. -/
def serialize_timestamp (t : NaiveDateTime) : String :=
  String.mk (printRFC3339 t)

/-- `Timestamp` is a transparent wrapper around `chrono::DateTime<Utc>`. -/
abbrev Timestamp := NaiveDateTime

/-! ### Spark data model: nominal id wrappers, enums, messages, webhooks -/

structure PersonId where
  val : String
deriving DecidableEq, Repr

structure ResourceId where
  val : String
deriving DecidableEq, Repr

structure Email where
  val : String
deriving DecidableEq, Repr

structure WebhookId where
  val : String
deriving DecidableEq, Repr

structure MessageId where
  val : String
deriving DecidableEq, Repr

structure RoomId where
  val : String
deriving DecidableEq, Repr

inductive RoomType where
  | direct
  | group
deriving DecidableEq, Repr

inductive ResourceType where
  | memberships
  | messages
  | rooms
deriving DecidableEq, Repr

inductive EventType where
  | created
  | updated
  | deleted
deriving DecidableEq, Repr

/-- A chat message.  In a webhook post the body fields are absent:
`text` falls back to `""` (`#[serde(default)]`), `markdown`/`html` to `None`. -/
structure Message where
  created : Option Timestamp
  id : MessageId
  personEmail : Email
  personId : PersonId
  roomId : RoomId
  roomType : RoomType
  text : String
  markdown : Option String
  html : Option String
deriving DecidableEq, Repr

/-- The raw envelope delivered by a webhook POST. -/
structure WebhookMessage where
  id : WebhookId
  actorId : PersonId
  appId : String
  created : Timestamp
  createdBy : PersonId
  data : Message
  event : EventType
  name : String
  orgId : String
  ownedBy : String
  resource : ResourceId
  status : String
  targetUrl : String
deriving DecidableEq, Repr

/-- The registration payload POSTed to `webhooks`. -/
structure WebhookRegistration where
  name : String
  targetUrl : String
  resource : ResourceType
  event : EventType
deriving DecidableEq, Repr

/-- A platform-side webhook registration record. -/
structure Webhook where
  id : WebhookId
  name : String
  targetUrl : String
  resource : ResourceType
  event : EventType
  orgId : String
  createdBy : String
  appId : String
  ownedBy : String
  status : String
  created : Timestamp
deriving DecidableEq, Repr

/-! ### JSON values and the serde-derived `Message` decoder

serde's derived map visitor: fields are matched by (camelCase) name in
arrival order, a known field seen twice is a duplicate-field error, unknown
fields are skipped, `Option` fields default to `None` when missing, the
`#[serde(default)]` `text` field defaults to `""`, all other fields are
required. -/

inductive Json where
  | null
  | bool (b : Bool)
  | num (n : Int)
  | str (s : String)
  | arr (xs : List Json)
  | obj (fields : List (String × Json))

def keys (fields : List (String × Json)) : List String := fields.map Prod.fst

def decodeString : Json → Except String String
  | .str s => .ok s
  | _ => .error "expected a string"

def decodeOptString : Json → Except String (Option String)
  | .null => .ok none
  | .str s => .ok (some s)
  | _ => .error "expected a string or null"

def decodeRoomType : Json → Except String RoomType
  | .str "direct" => .ok .direct
  | .str "group" => .ok .group
  | _ => .error "expected a room type"

def decodeOptTimestamp : Json → Except String (Option Timestamp)
  | .null => .ok none
  | .str s =>
    match deserialize_timestamp s with
    | some t => .ok (some t)
    | none => .error "invalid RFC3339 timestamp"
  | _ => .error "expected a timestamp string or null"

/-- Partially filled fields of a `Message` during map visiting. -/
structure MessageSlots where
  created : Option (Option Timestamp)
  id : Option MessageId
  personEmail : Option Email
  personId : Option PersonId
  roomId : Option RoomId
  roomType : Option RoomType
  text : Option String
  markdown : Option (Option String)
  html : Option (Option String)
deriving DecidableEq, Repr

def emptySlots : MessageSlots := ⟨none, none, none, none, none, none, none, none, none⟩

def decodeMessageFields : List (String × Json) → MessageSlots → Except String MessageSlots
  | [], sl => .ok sl
  | (k, v) :: rest, sl =>
    if k = "created" then
      match sl.created, decodeOptTimestamp v with
      | some _, _ => .error "duplicate field"
      | none, .error e => .error e
      | none, .ok x => decodeMessageFields rest { sl with created := some x }
    else if k = "id" then
      match sl.id, decodeString v with
      | some _, _ => .error "duplicate field"
      | none, .error e => .error e
      | none, .ok x => decodeMessageFields rest { sl with id := some ⟨x⟩ }
    else if k = "personEmail" then
      match sl.personEmail, decodeString v with
      | some _, _ => .error "duplicate field"
      | none, .error e => .error e
      | none, .ok x => decodeMessageFields rest { sl with personEmail := some ⟨x⟩ }
    else if k = "personId" then
      match sl.personId, decodeString v with
      | some _, _ => .error "duplicate field"
      | none, .error e => .error e
      | none, .ok x => decodeMessageFields rest { sl with personId := some ⟨x⟩ }
    else if k = "roomId" then
      match sl.roomId, decodeString v with
      | some _, _ => .error "duplicate field"
      | none, .error e => .error e
      | none, .ok x => decodeMessageFields rest { sl with roomId := some ⟨x⟩ }
    else if k = "roomType" then
      match sl.roomType, decodeRoomType v with
      | some _, _ => .error "duplicate field"
      | none, .error e => .error e
      | none, .ok x => decodeMessageFields rest { sl with roomType := some x }
    else if k = "text" then
      match sl.text, decodeString v with
      | some _, _ => .error "duplicate field"
      | none, .error e => .error e
      | none, .ok x => decodeMessageFields rest { sl with text := some x }
    else if k = "markdown" then
      match sl.markdown, decodeOptString v with
      | some _, _ => .error "duplicate field"
      | none, .error e => .error e
      | none, .ok x => decodeMessageFields rest { sl with markdown := some x }
    else if k = "html" then
      match sl.html, decodeOptString v with
      | some _, _ => .error "duplicate field"
      | none, .error e => .error e
      | none, .ok x => decodeMessageFields rest { sl with html := some x }
    else decodeMessageFields rest sl

/-- serde deserialization of `Message` from a JSON value. -/
def decodeMessage (j : Json) : Except String Message :=
  match j with
  | .obj fields =>
    match decodeMessageFields fields emptySlots with
    | .error e => .error e
    | .ok sl =>
      match sl.id, sl.personEmail, sl.personId, sl.roomId, sl.roomType with
      | some id, some pe, some pid, some rid, some rt =>
        .ok ⟨sl.created.getD none, id, pe, pid, rid, rt, sl.text.getD "",
          sl.markdown.getD none, sl.html.getD none⟩
      | _, _, _, _, _ => .error "missing field"
  | _ => .error "expected an object"

/-! ### The client's error type and HTTP request helpers

`reqwest::r#async::Client`'s `send()` either fails at the transport layer
(yielding a `reqwest::Error` whose `status()` is `None` — the helpers never
call `error_for_status`, so no status-carrying error is ever constructed) or
resolves to a response carrying an HTTP status and a body, whatever the
status is. -/

inductive Error where
  | reqwestError (status : Option Nat)
  | hyperError
  | jsonError (msg : String)
  | registerWebhook (msg : String)
  | deleteWebhook (msg : String)
  | ioError
deriving DecidableEq, Repr

/-- Outcome of one `send()`: transport failure, or a response. -/
inductive SendOutcome where
  | sendError
  | response (status : Nat) (body : Json)

/-- `Client::api_get_json`: decode the response body regardless of the
response status; a decode failure is a `JsonError`. -/
def api_get_json (dec : Json → Except String α) (out : SendOutcome) : Except Error α :=
  match out with
  | .sendError => .error (.reqwestError none)
  | .response _ body =>
    match dec body with
    | .ok a => .ok a
    | .error e => .error (.jsonError e)

/-- `Client::api_post_json`: `send().from_err().map(|_| ())` — any response,
whatever its status, is mapped to success. -/
def api_post_json (out : SendOutcome) : Except Error Unit :=
  match out with
  | .sendError => .error (.reqwestError none)
  | .response _ _ => .ok ()

/-- `Client::api_delete`: same shape as `api_post_json`. -/
def api_delete (out : SendOutcome) : Except Error Unit :=
  match out with
  | .sendError => .error (.reqwestError none)
  | .response _ _ => .ok ()

/-- `Client::delete_webhook`: `api_delete` with an `or_else` that converts a
`ReqwestError` whose status is 204 (no content) or 404 (not found) into
success and wraps every other error as `DeleteWebhook` (the Rust message
also interpolates the underlying error's display text). -/
def delete_webhook (out : SendOutcome) : Except Error Unit :=
  match api_delete out with
  | .ok () => .ok ()
  | .error e =>
    match e with
    | .reqwestError (some 204) => .ok ()
    | .reqwestError (some 404) => .ok ()
    | _ => .error (.deleteWebhook "Could not delete webhook")

/-! ### Webhook registration convergence (`Client::register_webhook`)

The platform is a list of `Webhook` records.  The routine lists the hooks,
filters those with `resource == Messages && event == Created`, deletes each
of those in order, then POSTs one fresh registration.  The model assumes the
platform processes every request it responds to: a hook is removed exactly
when `delete_webhook` returns success (which covers the already-gone cases)
and the fresh hook is created exactly when the add's `api_post_json`
returns success, with platform-assigned metadata `meta`.  `send` gives the
HTTP outcome of the DELETE for each webhook id. -/

def isMatchingHook (w : Webhook) : Bool :=
  w.resource == ResourceType.messages && w.event == EventType.created

def deleteHookById (hooks : List Webhook) (i : WebhookId) : List Webhook :=
  hooks.filter (fun w => decide (w.id ≠ i))

/-- The platform record created from a registration payload. -/
def mkHook (meta : Webhook) (reg : WebhookRegistration) : Webhook :=
  { meta with
    name := reg.name
    targetUrl := reg.targetUrl
    resource := reg.resource
    event := reg.event }

/-- The `for_each` over the filtered stream: delete each pending hook,
stopping at the first failure. -/
def registerDeletes (send : WebhookId → SendOutcome) :
    List Webhook → List Webhook → List Webhook × Except Error Unit
  | [], hooks => (hooks, .ok ())
  | w :: pending, hooks =>
    match delete_webhook (send w.id) with
    | .ok () => registerDeletes send pending (deleteHookById hooks w.id)
    | .error e => (hooks, .error e)

/-- `Client::register_webhook` run against platform state `hooks`:
returns the new platform state and the client-visible result. -/
def register_webhook (send : WebhookId → SendOutcome) (addOut : SendOutcome)
    (meta : Webhook) (hooks : List Webhook) (url : String) :
    List Webhook × Except Error Unit :=
  match registerDeletes send (hooks.filter isMatchingHook) hooks with
  | (hooks', .ok ()) =>
    match api_post_json addOut with
    | .ok () =>
      (hooks' ++ [mkHook meta ⟨"gerritbot", url, .messages, .created⟩], .ok ())
    | .error e => (hooks', .error e)
  | (hooks', .error e) => (hooks', .error e)

/-! ### The webhook ingestion server (`reject_webhook_request`,
`start_raw_webhook_server`) -/

/-- The parts of a `hyper::Request` the listener inspects. -/
structure HttpRequest where
  uri : String
  method : String
  contentType : Option String

/-- `reject_webhook_request`: `404` off the root path, `405` for a method
other than POST, `415` unless the `Content-Type` header value starts with
`application/json`. -/
def reject_webhook_request (r : HttpRequest) : Option Nat :=
  if r.uri ≠ "/" then some 404
  else if r.method ≠ "POST" then some 405
  else if ¬ ((r.contentType.map (fun v => v.startsWith "application/json")).getD false)
  then some 415
  else none

/-- One request handled by `start_raw_webhook_server`: the response
(status, body) plus the envelope the spawned decode-and-forward task pushes
into the channel (`none` when the body does not decode — logged and
dropped).  The response is built before the spawned task runs, so it cannot
depend on the decode outcome. -/
def handleRawRequest (r : HttpRequest) (decoded : Option WebhookMessage) :
    Nat × String × Option WebhookMessage :=
  match reject_webhook_request r with
  | some s => (s, "", none)
  | none => (200, "", decoded)

/-! ### Self-filter and hydration (`start_webhook_server`) -/

/-- The `.filter` dropping the bot's own posts. -/
def filteredPosts (ownId : PersonId) (posts : List WebhookMessage) :
    List WebhookMessage :=
  posts.filter (fun post => decide (post.data.personId ≠ ownId))

/-- The `.and_then(get_message ...).filter_map(identity)` stage: fetch each
message body, dropping (after logging) the ones whose fetch fails. -/
def hydrate (fetch : MessageId → Except Error Message)
    (posts : List WebhookMessage) : List Message :=
  posts.filterMap (fun post => (fetch post.data.id).toOption)

/-- The message stream produced by `start_webhook_server`. -/
def webhookMessages (ownId : PersonId) (fetch : MessageId → Except Error Message)
    (posts : List WebhookMessage) : List Message :=
  hydrate fetch (filteredPosts ownId posts)

/-! ### The unified action loop (`main` in `src/main.rs`)

`Action` and the bot state are external; the loop filters `NoOp`, folds
`update` over the remaining actions threading the bot state by move,
collects the response of each produced task, and for a `ReplyAndSave` task
additionally records a clone of the post-update state as the snapshot a
spawned fire-and-forget persistence task will save. -/

inductive Action (α : Type) where
  | noOp
  | event (a : α)
deriving DecidableEq, Repr

structure Response where
  personId : PersonId
  message : String
deriving DecidableEq, Repr

inductive Task where
  | reply (r : Response)
  | replyAndSave (r : Response)
deriving DecidableEq, Repr

/-- The fold: final state, replies sent (in order), and the state snapshots
handed to spawned persistence tasks (in order). -/
def runLoop (update : Action α → β → β × Option Task) (b : β) :
    List (Action α) → β × List Response × List β
  | [] => (b, [], [])
  | a :: rest =>
    match a with
    | .noOp => runLoop update b rest
    | .event x =>
      let p := update (.event x) b
      match p.2 with
      | none => runLoop update p.1 rest
      | some (.reply r) =>
        let q := runLoop update p.1 rest
        (q.1, r :: q.2.1, q.2.2)
      | some (.replyAndSave r) =>
        let q := runLoop update p.1 rest
        (q.1, r :: q.2.1, p.1 :: q.2.2)

/-- Outcome of the spawned persistence tasks under a given save behavior:
the logged error of each attempt (`none` when the save succeeded). -/
def runSaves (saveResult : β → Option String) (snapshots : List β) :
    List (Option String) :=
  snapshots.map saveResult

/-- The observable behavior of one program run: the replies sent and the
logged persistence outcomes. -/
def runWithSaves (update : Action α → β → β × Option Task)
    (saveResult : β → Option String) (b : β) (actions : List (Action α)) :
    List Response × List (Option String) :=
  let q := runLoop update b actions
  (q.2.1, runSaves saveResult q.2.2)

/-- serde serialization of a transparent newtype-string id. -/
def encodeString (s : String) : Json := .str s

/-! ### Concrete sample values, used to instantiate the theorems below -/

def sampleTs : Timestamp := ⟨2019, 1, 1, 0, 0, 0, 0⟩

def sampleMessage (pid : String) : Message :=
  ⟨none, ⟨"m1"⟩, ⟨"a@b.c"⟩, ⟨pid⟩, ⟨"r1"⟩, RoomType.direct, "", none, none⟩

def samplePost (pid : String) : WebhookMessage :=
  ⟨⟨"w1"⟩, ⟨pid⟩, "app", sampleTs, ⟨pid⟩, sampleMessage pid, EventType.created,
    "gerritbot", "org", "own", ⟨"messages"⟩, "active", "http://example/"⟩

def sampleHookMeta : Webhook :=
  ⟨⟨"w9"⟩, "gerritbot", "http://t/", ResourceType.messages, EventType.created,
    "org", "cb", "app", "own", "active", sampleTs⟩

/-- The fields of a stub message as embedded in a webhook envelope: no
`text`, `markdown` or `html`. -/
def sampleStubFields : List (String × Json) :=
  [("id", .str "m1"), ("personEmail", .str "a@b.c"), ("personId", .str "p1"),
    ("roomId", .str "r1"), ("roomType", .str "direct")]

def sampleHydrated : Message :=
  ⟨none, ⟨"m1"⟩, ⟨"a@b.c"⟩, ⟨"p1"⟩, ⟨"r1"⟩, RoomType.direct, "hello", none, none⟩

/-! ## Theorems -/

/-- C3: the claim says every non-success HTTP response surfaces as a
transport error carrying the response status.  The helpers never call
`error_for_status`: `api_post_json` (and `api_delete`) map a response with
a non-success status — here 500 and 404 — to plain success, and
`api_get_json` never produces a status-carrying error either.  This theorem
evaluates the code at such failing inputs. -/
theorem api_helpers_ignore_status :
    api_post_json (.response 500 .null) = .ok () ∧
    api_delete (.response 404 .null) = .ok () ∧
    api_get_json decodeString (.response 500 (.str "err")) = .ok "err" :=
  ⟨rfl, rfl, rfl⟩

/-- C4: the response status of the webhook listener is decided purely by
validation — 404 off the root path, else 405 for non-POST, else 415 without
an `application/json` content type, else 200 — always with an empty body,
and status and body are independent of whether the body later decodes. -/
theorem webhook_request_response (r : HttpRequest) (d d' : Option WebhookMessage) :
    (handleRawRequest r d).1 =
      (if r.uri ≠ "/" then 404
       else if r.method ≠ "POST" then 405
       else if ¬ ((r.contentType.map (fun v => v.startsWith "application/json")).getD false)
       then 415
       else 200) ∧
    (handleRawRequest r d).2.1 = "" ∧
    (handleRawRequest r d).1 = (handleRawRequest r d').1 ∧
    (handleRawRequest r d).2.1 = (handleRawRequest r d').2.1 := by
  simp only [handleRawRequest, reject_webhook_request]
  split_ifs <;> simp

/-- C6: `delete_webhook` treats a not-found (404) or no-content (204)
response as success, and every error it does return is the distinct
`DeleteWebhook` variant. -/
theorem delete_webhook_idempotent :
    (∀ body, delete_webhook (.response 404 body) = .ok ()) ∧
    (∀ body, delete_webhook (.response 204 body) = .ok ()) ∧
    (∀ out e, delete_webhook out = .error e → ∃ msg, e = .deleteWebhook msg) := by
  refine ⟨fun _ => rfl, fun _ => rfl, fun out e h => ?_⟩
  cases out with
  | sendError =>
    simp only [delete_webhook, api_delete] at h
    exact ⟨"Could not delete webhook", by injection h with h; exact h.symm⟩
  | response st body => simp [delete_webhook, api_delete] at h

/-- Witness for C6: a transport failure comes back as a `DeleteWebhook`
error. -/
theorem delete_webhook_idempotent_witness :
    ∃ msg, Error.deleteWebhook "Could not delete webhook" = Error.deleteWebhook msg :=
  delete_webhook_idempotent.2.2 .sendError _ rfl

/-- C5: a webhook post whose embedded sender id is the bot's own id is
dropped by the self-filter, so it never reaches the hydration stage, and
every message in the output stream is the hydration of some non-self
post. -/
theorem self_filter_drops_own_posts (ownId : PersonId)
    (fetch : MessageId → Except Error Message) (posts : List WebhookMessage)
    (post : WebhookMessage) (hself : post.data.personId = ownId) :
    post ∉ filteredPosts ownId posts ∧
    (∀ m ∈ webhookMessages ownId fetch posts,
      ∃ q ∈ posts, q.data.personId ≠ ownId ∧ fetch q.data.id = .ok m) := by
  constructor
  · intro hmem
    rw [filteredPosts, List.mem_filter, decide_eq_true_eq] at hmem
    exact hmem.2 hself
  · intro m hm
    rw [webhookMessages, hydrate, List.mem_filterMap] at hm
    obtain ⟨q, hq, hfq⟩ := hm
    rw [filteredPosts, List.mem_filter, decide_eq_true_eq] at hq
    refine ⟨q, hq.1, hq.2, ?_⟩
    cases hfe : fetch q.data.id with
    | ok a => rw [hfe] at hfq; injection hfq with hfq; rw [hfq]
    | error err => rw [hfe] at hfq; exact absurd hfq (by simp [Except.toOption])

/-- Witness for C5 at a concrete self-post. -/
theorem self_filter_drops_own_posts_witness :
    samplePost "me" ∉ filteredPosts ⟨"me"⟩ [samplePost "me"] ∧
    (∀ m ∈ webhookMessages ⟨"me"⟩ (fun _ => .error .hyperError) [samplePost "me"],
      ∃ q ∈ [samplePost "me"], q.data.personId ≠ (⟨"me"⟩ : PersonId) ∧
        (fun _ => (.error .hyperError : Except Error Message)) q.data.id = .ok m) :=
  self_filter_drops_own_posts ⟨"me"⟩ (fun _ => .error .hyperError)
    [samplePost "me"] (samplePost "me") rfl

/-- C7: when the hydration fetch of one (non-self) post fails, that single
message is dropped and the stream continues with the remaining posts. -/
theorem hydration_failure_drops_one (ownId : PersonId)
    (fetch : MessageId → Except Error Message) (xs ys : List WebhookMessage)
    (p : WebhookMessage) (e : Error)
    (hns : p.data.personId ≠ ownId) (hf : fetch p.data.id = .error e) :
    webhookMessages ownId fetch (xs ++ p :: ys) =
      webhookMessages ownId fetch xs ++ webhookMessages ownId fetch ys := by
  simp only [webhookMessages, filteredPosts, hydrate, List.filter_append,
    List.filterMap_append, List.filter_cons]
  rw [if_pos (by simpa using hns)]
  simp [hf, Except.toOption]

/-- Witness for C7: one failing fetch in the middle of three posts. -/
theorem hydration_failure_drops_one_witness :
    webhookMessages ⟨"me"⟩ (fun _ => .error .hyperError)
        ([samplePost "a"] ++ samplePost "b" :: [samplePost "c"]) =
      webhookMessages ⟨"me"⟩ (fun _ => .error .hyperError) [samplePost "a"] ++
        webhookMessages ⟨"me"⟩ (fun _ => .error .hyperError) [samplePost "c"] :=
  hydration_failure_drops_one ⟨"me"⟩ (fun _ => .error .hyperError)
    [samplePost "a"] [samplePost "c"] (samplePost "b") .hyperError
    (by simp [samplePost, sampleMessage]) rfl

/-- C8: when `update` returns a `ReplyAndSave` task, the loop sends exactly
one reply for it and schedules exactly one persistence attempt, on a clone
of the post-update state; the replies are the same whatever the outcome of
the save attempts. -/
theorem replyAndSave_reply_and_snapshot {α β : Type}
    (update : Action α → β → β × Option Task) (sr sr' : β → Option String)
    (b b' : β) (x : α) (r : Response) (rest : List (Action α))
    (h : update (.event x) b = (b', some (.replyAndSave r))) :
    runLoop update b (.event x :: rest) =
      ((runLoop update b' rest).1, r :: (runLoop update b' rest).2.1,
        b' :: (runLoop update b' rest).2.2) ∧
    (runWithSaves update sr b (.event x :: rest)).1 =
      (runWithSaves update sr' b (.event x :: rest)).1 ∧
    (runWithSaves update sr b (.event x :: rest)).2 =
      runSaves sr (b' :: (runLoop update b' rest).2.2) := by
  have hrun : runLoop update b (.event x :: rest) =
      ((runLoop update b' rest).1, r :: (runLoop update b' rest).2.1,
        b' :: (runLoop update b' rest).2.2) := by
    simp [runLoop, h]
  exact ⟨hrun, by simp [runWithSaves, hrun], by simp [runWithSaves, hrun]⟩

/-- Witness for C8 at a concrete update function and state. -/
theorem replyAndSave_reply_and_snapshot_witness :
    runLoop (fun (_ : Action Unit) (n : Nat) => (n + 1, some (.replyAndSave ⟨⟨"p"⟩, "hi"⟩)))
        0 [.event ()] =
      ((runLoop (fun (_ : Action Unit) (n : Nat) => (n + 1, some (.replyAndSave ⟨⟨"p"⟩, "hi"⟩))) 1 []).1,
        ⟨⟨"p"⟩, "hi"⟩ :: (runLoop (fun (_ : Action Unit) (n : Nat) => (n + 1, some (.replyAndSave ⟨⟨"p"⟩, "hi"⟩))) 1 []).2.1,
        1 :: (runLoop (fun (_ : Action Unit) (n : Nat) => (n + 1, some (.replyAndSave ⟨⟨"p"⟩, "hi"⟩))) 1 []).2.2) ∧
    (runWithSaves (fun (_ : Action Unit) (n : Nat) => (n + 1, some (.replyAndSave ⟨⟨"p"⟩, "hi"⟩)))
        (fun _ => none) 0 [.event ()]).1 =
      (runWithSaves (fun (_ : Action Unit) (n : Nat) => (n + 1, some (.replyAndSave ⟨⟨"p"⟩, "hi"⟩)))
        (fun _ => some "disk full") 0 [.event ()]).1 ∧
    (runWithSaves (fun (_ : Action Unit) (n : Nat) => (n + 1, some (.replyAndSave ⟨⟨"p"⟩, "hi"⟩)))
        (fun _ => none) 0 [.event ()]).2 =
      runSaves (fun _ => none)
        (1 :: (runLoop (fun (_ : Action Unit) (n : Nat) => (n + 1, some (.replyAndSave ⟨⟨"p"⟩, "hi"⟩))) 1 []).2.2) :=
  replyAndSave_reply_and_snapshot
    (fun (_ : Action Unit) (n : Nat) => (n + 1, some (.replyAndSave ⟨⟨"p"⟩, "hi"⟩)))
    (fun _ => none) (fun _ => some "disk full") 0 1 () ⟨⟨"p"⟩, "hi"⟩ [] rfl

/-- After a successful deletion pass every hook that remains is
non-matching, provided every matching hook's id was pending. -/
theorem registerDeletes_ok_no_matching (send : WebhookId → SendOutcome) :
    ∀ (pending hooks hooks' : List Webhook),
      (∀ w ∈ hooks, isMatchingHook w = true → ∃ p ∈ pending, p.id = w.id) →
      registerDeletes send pending hooks = (hooks', .ok ()) →
      ∀ w ∈ hooks', isMatchingHook w = false := by
  intro pending
  induction pending with
  | nil =>
    intro hooks hooks' hinv h w hw
    simp only [registerDeletes, Prod.mk.injEq] at h
    rw [← h.1] at hw
    cases hm : isMatchingHook w with
    | false => rfl
    | true => obtain ⟨p, hp, _⟩ := hinv w hw hm; exact absurd hp (List.not_mem_nil p)
  | cons v pending ih =>
    intro hooks hooks' hinv h
    simp only [registerDeletes] at h
    split at h
    · refine ih _ _ ?_ h
      intro w hw hm
      rw [deleteHookById, List.mem_filter, decide_eq_true_eq] at hw
      obtain ⟨p, hp, hpid⟩ := hinv w hw.1 hm
      rcases List.mem_cons.1 hp with hpv | hpmem
      · exact absurd (hpv ▸ hpid) (fun hh => hw.2 hh.symm)
      · exact ⟨p, hpmem, hpid⟩
    · simp at h

/-- The deletion pass only ever removes hooks. -/
theorem registerDeletes_fst_sublist (send : WebhookId → SendOutcome) :
    ∀ (pending hooks : List Webhook),
      (registerDeletes send pending hooks).1.Sublist hooks := by
  intro pending
  induction pending with
  | nil => intro hooks; exact List.Sublist.refl hooks
  | cons v pending ih =>
    intro hooks
    simp only [registerDeletes]
    split
    · exact (ih (deleteHookById hooks v.id)).trans (List.filter_sublist hooks)
    · exact List.Sublist.refl hooks

/-- The heart of C1: a successful `register_webhook` leaves exactly the
fresh registration as the matching hooks. -/
theorem register_ok_filter (send : WebhookId → SendOutcome) (addOut : SendOutcome)
    (meta : Webhook) (hooks : List Webhook) (url : String) (s' : List Webhook)
    (h : register_webhook send addOut meta hooks url = (s', .ok ())) :
    s'.filter isMatchingHook = [mkHook meta ⟨"gerritbot", url, .messages, .created⟩] := by
  rcases hd : registerDeletes send (hooks.filter isMatchingHook) hooks with ⟨hooks'', res⟩
  rw [register_webhook, hd] at h
  cases res with
  | error e => simp at h
  | ok u =>
    cases u
    cases hap : api_post_json addOut with
    | error e2 => rw [hap] at h; simp at h
    | ok u2 =>
      cases u2
      rw [hap] at h
      simp only [Prod.mk.injEq] at h
      have hnm : ∀ w ∈ hooks'', isMatchingHook w = false := by
        refine registerDeletes_ok_no_matching send (hooks.filter isMatchingHook)
          hooks hooks'' ?_ hd
        intro w hw hm
        exact ⟨w, List.mem_filter.2 ⟨hw, hm⟩, rfl⟩
      rw [← h.1, List.filter_append, List.filter_eq_nil_iff.2 (fun w hw => by
        simp [hnm w hw]), List.nil_append, List.filter_cons, List.filter_nil]
      rw [if_pos]
      rfl

/-- C1: `register_webhook` is convergent and idempotent: any successful run,
from any prior platform state, leaves exactly one matching
{resource = messages, event = created} webhook, and it points at the given
target URL; a second successful run in succession again leaves exactly
one, pointing at the latest URL — never two. -/
theorem register_webhook_single_matching (send : WebhookId → SendOutcome)
    (addOut : SendOutcome) (meta : Webhook) (hooks : List Webhook) (url : String)
    (s' : List Webhook)
    (h : register_webhook send addOut meta hooks url = (s', .ok ())) :
    (s'.filter isMatchingHook = [mkHook meta ⟨"gerritbot", url, .messages, .created⟩] ∧
      (mkHook meta ⟨"gerritbot", url, .messages, .created⟩).targetUrl = url) ∧
    ∀ send2 addOut2 meta2 url2 s'',
      register_webhook send2 addOut2 meta2 s' url2 = (s'', .ok ()) →
      s''.filter isMatchingHook =
        [mkHook meta2 ⟨"gerritbot", url2, .messages, .created⟩] :=
  ⟨⟨register_ok_filter send addOut meta hooks url s' h, rfl⟩,
    fun send2 addOut2 meta2 url2 s'' h2 =>
      register_ok_filter send2 addOut2 meta2 s' url2 s'' h2⟩

/-- Witness for C1: a successful registration against an empty platform. -/
theorem register_webhook_single_matching_witness :
    (([mkHook sampleHookMeta ⟨"gerritbot", "http://t/", .messages, .created⟩].filter
        isMatchingHook =
      [mkHook sampleHookMeta ⟨"gerritbot", "http://t/", .messages, .created⟩]) ∧
      (mkHook sampleHookMeta ⟨"gerritbot", "http://t/", .messages, .created⟩).targetUrl =
        "http://t/") ∧
    ∀ send2 addOut2 meta2 url2 s'',
      register_webhook send2 addOut2 meta2
          [mkHook sampleHookMeta ⟨"gerritbot", "http://t/", .messages, .created⟩]
          url2 = (s'', .ok ()) →
      s''.filter isMatchingHook =
        [mkHook meta2 ⟨"gerritbot", url2, .messages, .created⟩] :=
  register_webhook_single_matching (fun _ => .response 204 .null)
    (.response 200 .null) sampleHookMeta [] "http://t/" _ rfl

/-- C2: when the deletion pass fails, `register_webhook` surfaces that very
error, the add is never performed — the resulting platform state is a
sublist of the prior one, so it has fewer or equally many matching hooks
and never a duplicate. -/
theorem register_webhook_deletion_failure (send : WebhookId → SendOutcome)
    (addOut : SendOutcome) (meta : Webhook) (hooks : List Webhook) (url : String)
    (s' : List Webhook) (e : Error)
    (h : registerDeletes send (hooks.filter isMatchingHook) hooks = (s', .error e)) :
    register_webhook send addOut meta hooks url = (s', .error e) ∧
    s'.Sublist hooks ∧
    (s'.filter isMatchingHook).length ≤ (hooks.filter isMatchingHook).length := by
  have hsub : s'.Sublist hooks := by
    have := registerDeletes_fst_sublist send (hooks.filter isMatchingHook) hooks
    rw [h] at this
    exact this
  refine ⟨?_, hsub, (hsub.filter isMatchingHook).length_le⟩
  rw [register_webhook, h]

/-- Witness for C2: a transport failure while deleting the one matching
hook aborts the run with the state unchanged. -/
theorem register_webhook_deletion_failure_witness :
    register_webhook (fun _ => .sendError) (.response 200 .null) sampleHookMeta
        [sampleHookMeta] "http://t/" =
      ([sampleHookMeta], .error (.deleteWebhook "Could not delete webhook")) ∧
    List.Sublist [sampleHookMeta] [sampleHookMeta] ∧
    ([sampleHookMeta].filter isMatchingHook).length ≤
      ([sampleHookMeta].filter isMatchingHook).length :=
  register_webhook_deletion_failure (fun _ => .sendError) (.response 200 .null)
    sampleHookMeta [sampleHookMeta] "http://t/" [sampleHookMeta]
    (.deleteWebhook "Could not delete webhook") rfl

theorem exceptMap_error {ε α β : Type} (f : α → β) (e : ε) :
    Except.map f (Except.error e) = Except.error e := rfl

theorem exceptMap_ok {ε α β : Type} (f : α → β) (a : α) :
    Except.map f (Except.ok a : Except ε α) = Except.ok (f a) := rfl

theorem keys_cons (k : String) (v : Json) (rest : List (String × Json)) :
    keys ((k, v) :: rest) = k :: keys rest := rfl

/-- Visiting fields that do not mention `text` commutes with presetting the
`text` slot. -/
theorem decodeMessageFields_text_set :
    ∀ (fields : List (String × Json)) (sl : MessageSlots) (s : String),
      "text" ∉ keys fields →
      decodeMessageFields fields { sl with text := some s } =
        (decodeMessageFields fields sl).map (fun r => { r with text := some s }) := by
  intro fields
  induction fields with
  | nil => intro sl s _; rfl
  | cons kv rest ih =>
    intro sl s h
    obtain ⟨k, v⟩ := kv
    rw [keys_cons, List.mem_cons, not_or] at h
    obtain ⟨hk, htail⟩ := h
    simp only [decodeMessageFields]
    by_cases h1 : k = "created"
    · simp only [if_pos h1]
      cases hc : sl.created with
      | some x => rfl
      | none =>
        cases hdv : decodeOptTimestamp v with
        | error e => rfl
        | ok x => exact ih { sl with created := some x } s htail
    simp only [if_neg h1]
    by_cases h2 : k = "id"
    · simp only [if_pos h2]
      cases hc : sl.id with
      | some x => rfl
      | none =>
        cases hdv : decodeString v with
        | error e => rfl
        | ok x => exact ih { sl with id := some ⟨x⟩ } s htail
    simp only [if_neg h2]
    by_cases h3 : k = "personEmail"
    · simp only [if_pos h3]
      cases hc : sl.personEmail with
      | some x => rfl
      | none =>
        cases hdv : decodeString v with
        | error e => rfl
        | ok x => exact ih { sl with personEmail := some ⟨x⟩ } s htail
    simp only [if_neg h3]
    by_cases h4 : k = "personId"
    · simp only [if_pos h4]
      cases hc : sl.personId with
      | some x => rfl
      | none =>
        cases hdv : decodeString v with
        | error e => rfl
        | ok x => exact ih { sl with personId := some ⟨x⟩ } s htail
    simp only [if_neg h4]
    by_cases h5 : k = "roomId"
    · simp only [if_pos h5]
      cases hc : sl.roomId with
      | some x => rfl
      | none =>
        cases hdv : decodeString v with
        | error e => rfl
        | ok x => exact ih { sl with roomId := some ⟨x⟩ } s htail
    simp only [if_neg h5]
    by_cases h6 : k = "roomType"
    · simp only [if_pos h6]
      cases hc : sl.roomType with
      | some x => rfl
      | none =>
        cases hdv : decodeRoomType v with
        | error e => rfl
        | ok x => exact ih { sl with roomType := some x } s htail
    simp only [if_neg h6]
    by_cases h7 : k = "text"
    · exact absurd h7.symm hk
    simp only [if_neg h7]
    by_cases h8 : k = "markdown"
    · simp only [if_pos h8]
      cases hc : sl.markdown with
      | some x => rfl
      | none =>
        cases hdv : decodeOptString v with
        | error e => rfl
        | ok x => exact ih { sl with markdown := some x } s htail
    simp only [if_neg h8]
    by_cases h9 : k = "html"
    · simp only [if_pos h9]
      cases hc : sl.html with
      | some x => rfl
      | none =>
        cases hdv : decodeOptString v with
        | error e => rfl
        | ok x => exact ih { sl with html := some x } s htail
    simp only [if_neg h9]
    exact ih sl s htail

/-- A successful field visit leaves any unmentioned `text`/`markdown`/`html`
slot unchanged. -/
theorem decodeMessageFields_preserved :
    ∀ (fields : List (String × Json)) (sl : MessageSlots) (r : MessageSlots),
      decodeMessageFields fields sl = .ok r →
      ("text" ∉ keys fields → r.text = sl.text) ∧
      ("markdown" ∉ keys fields → r.markdown = sl.markdown) ∧
      ("html" ∉ keys fields → r.html = sl.html) := by
  intro fields
  induction fields with
  | nil =>
    intro sl r h
    injection h with h
    subst h
    exact ⟨fun _ => rfl, fun _ => rfl, fun _ => rfl⟩
  | cons kv rest ih =>
    intro sl r h
    obtain ⟨k, v⟩ := kv
    simp only [decodeMessageFields] at h
    by_cases h1 : k = "created"
    · simp only [if_pos h1] at h
      cases hc : sl.created with
      | some x => rw [hc] at h; simp at h
      | none =>
        rw [hc] at h
        cases hdv : decodeOptTimestamp v with
        | error e => rw [hdv] at h; simp at h
        | ok x =>
          rw [hdv] at h
          obtain ⟨ht, hm, hh⟩ := ih _ r h
          refine ⟨fun hk => ?_, fun hk => ?_, fun hk => ?_⟩ <;>
            rw [keys_cons, List.mem_cons, not_or] at hk
          · exact ht hk.2
          · exact hm hk.2
          · exact hh hk.2
    simp only [if_neg h1] at h
    by_cases h2 : k = "id"
    · simp only [if_pos h2] at h
      cases hc : sl.id with
      | some x => rw [hc] at h; simp at h
      | none =>
        rw [hc] at h
        cases hdv : decodeString v with
        | error e => rw [hdv] at h; simp at h
        | ok x =>
          rw [hdv] at h
          obtain ⟨ht, hm, hh⟩ := ih _ r h
          refine ⟨fun hk => ?_, fun hk => ?_, fun hk => ?_⟩ <;>
            rw [keys_cons, List.mem_cons, not_or] at hk
          · exact ht hk.2
          · exact hm hk.2
          · exact hh hk.2
    simp only [if_neg h2] at h
    by_cases h3 : k = "personEmail"
    · simp only [if_pos h3] at h
      cases hc : sl.personEmail with
      | some x => rw [hc] at h; simp at h
      | none =>
        rw [hc] at h
        cases hdv : decodeString v with
        | error e => rw [hdv] at h; simp at h
        | ok x =>
          rw [hdv] at h
          obtain ⟨ht, hm, hh⟩ := ih _ r h
          refine ⟨fun hk => ?_, fun hk => ?_, fun hk => ?_⟩ <;>
            rw [keys_cons, List.mem_cons, not_or] at hk
          · exact ht hk.2
          · exact hm hk.2
          · exact hh hk.2
    simp only [if_neg h3] at h
    by_cases h4 : k = "personId"
    · simp only [if_pos h4] at h
      cases hc : sl.personId with
      | some x => rw [hc] at h; simp at h
      | none =>
        rw [hc] at h
        cases hdv : decodeString v with
        | error e => rw [hdv] at h; simp at h
        | ok x =>
          rw [hdv] at h
          obtain ⟨ht, hm, hh⟩ := ih _ r h
          refine ⟨fun hk => ?_, fun hk => ?_, fun hk => ?_⟩ <;>
            rw [keys_cons, List.mem_cons, not_or] at hk
          · exact ht hk.2
          · exact hm hk.2
          · exact hh hk.2
    simp only [if_neg h4] at h
    by_cases h5 : k = "roomId"
    · simp only [if_pos h5] at h
      cases hc : sl.roomId with
      | some x => rw [hc] at h; simp at h
      | none =>
        rw [hc] at h
        cases hdv : decodeString v with
        | error e => rw [hdv] at h; simp at h
        | ok x =>
          rw [hdv] at h
          obtain ⟨ht, hm, hh⟩ := ih _ r h
          refine ⟨fun hk => ?_, fun hk => ?_, fun hk => ?_⟩ <;>
            rw [keys_cons, List.mem_cons, not_or] at hk
          · exact ht hk.2
          · exact hm hk.2
          · exact hh hk.2
    simp only [if_neg h5] at h
    by_cases h6 : k = "roomType"
    · simp only [if_pos h6] at h
      cases hc : sl.roomType with
      | some x => rw [hc] at h; simp at h
      | none =>
        rw [hc] at h
        cases hdv : decodeRoomType v with
        | error e => rw [hdv] at h; simp at h
        | ok x =>
          rw [hdv] at h
          obtain ⟨ht, hm, hh⟩ := ih _ r h
          refine ⟨fun hk => ?_, fun hk => ?_, fun hk => ?_⟩ <;>
            rw [keys_cons, List.mem_cons, not_or] at hk
          · exact ht hk.2
          · exact hm hk.2
          · exact hh hk.2
    simp only [if_neg h6] at h
    by_cases h7 : k = "text"
    · simp only [if_pos h7] at h
      cases hc : sl.text with
      | some x => rw [hc] at h; simp at h
      | none =>
        rw [hc] at h
        cases hdv : decodeString v with
        | error e => rw [hdv] at h; simp at h
        | ok x =>
          rw [hdv] at h
          obtain ⟨ht, hm, hh⟩ := ih _ r h
          refine ⟨fun hk => ?_, fun hk => ?_, fun hk => ?_⟩ <;>
            rw [keys_cons, List.mem_cons, not_or] at hk
          · exact absurd h7.symm hk.1
          · exact hm hk.2
          · exact hh hk.2
    simp only [if_neg h7] at h
    by_cases h8 : k = "markdown"
    · simp only [if_pos h8] at h
      cases hc : sl.markdown with
      | some x => rw [hc] at h; simp at h
      | none =>
        rw [hc] at h
        cases hdv : decodeOptString v with
        | error e => rw [hdv] at h; simp at h
        | ok x =>
          rw [hdv] at h
          obtain ⟨ht, hm, hh⟩ := ih _ r h
          refine ⟨fun hk => ?_, fun hk => ?_, fun hk => ?_⟩ <;>
            rw [keys_cons, List.mem_cons, not_or] at hk
          · exact ht hk.2
          · exact absurd h8.symm hk.1
          · exact hh hk.2
    simp only [if_neg h8] at h
    by_cases h9 : k = "html"
    · simp only [if_pos h9] at h
      cases hc : sl.html with
      | some x => rw [hc] at h; simp at h
      | none =>
        rw [hc] at h
        cases hdv : decodeOptString v with
        | error e => rw [hdv] at h; simp at h
        | ok x =>
          rw [hdv] at h
          obtain ⟨ht, hm, hh⟩ := ih _ r h
          refine ⟨fun hk => ?_, fun hk => ?_, fun hk => ?_⟩ <;>
            rw [keys_cons, List.mem_cons, not_or] at hk
          · exact ht hk.2
          · exact hm hk.2
          · exact absurd h9.symm hk.1
    simp only [if_neg h9] at h
    obtain ⟨ht, hm, hh⟩ := ih _ r h
    refine ⟨fun hk => ?_, fun hk => ?_, fun hk => ?_⟩ <;>
      rw [keys_cons, List.mem_cons, not_or] at hk
    · exact ht hk.2
    · exact hm hk.2
    · exact hh hk.2

/-- C10: a message object that omits the `text` field decodes successfully
whenever the same object with a `text` field does, yielding `text = ""`
(`#[serde(default)]`); omitted `markdown`/`html` come out as `none`.  Stub
messages embedded in envelopes therefore always decode. -/
theorem message_stub_decode (fields : List (String × Json)) (s : String) (m : Message)
    (htext : "text" ∉ keys fields)
    (h : decodeMessage (.obj (("text", Json.str s) :: fields)) = .ok m) :
    decodeMessage (.obj fields) = .ok { m with text := "" } ∧
    ("markdown" ∉ keys fields → m.markdown = none) ∧
    ("html" ∉ keys fields → m.html = none) := by
  simp only [decodeMessage] at h ⊢
  have hstep : decodeMessageFields (("text", Json.str s) :: fields) emptySlots =
      decodeMessageFields fields { emptySlots with text := some s } := rfl
  rw [hstep, decodeMessageFields_text_set fields emptySlots s htext] at h
  cases hr : decodeMessageFields fields emptySlots with
  | error e => rw [hr] at h; exact absurd h (by simp [exceptMap_error])
  | ok rsl =>
    obtain ⟨ht, hmd, hht⟩ := decodeMessageFields_preserved fields emptySlots rsl hr
    rw [hr, exceptMap_ok] at h
    dsimp only [] at h
    cases hid : rsl.id with
    | none => rw [hid] at h; simp at h
    | some idv =>
    cases hpe : rsl.personEmail with
    | none => rw [hid, hpe] at h; simp at h
    | some pev =>
    cases hpi : rsl.personId with
    | none => rw [hid, hpe, hpi] at h; simp at h
    | some piv =>
    cases hri : rsl.roomId with
    | none => rw [hid, hpe, hpi, hri] at h; simp at h
    | some riv =>
    cases hrt : rsl.roomType with
    | none => rw [hid, hpe, hpi, hri, hrt] at h; simp at h
    | some rtv =>
      rw [hid, hpe, hpi, hri, hrt] at h
      simp only [Option.getD_some] at h
      injection h with hme
      subst hme
      refine ⟨?_, fun hk => ?_, fun hk => ?_⟩
      · simp [hid, hpe, hpi, hri, hrt, ht htext, emptySlots]
      · simp [hmd hk, emptySlots]
      · simp [hht hk, emptySlots]

/-- Witness for C10: the concrete stub object (no `text`) decodes to the
hydrated message with its body blanked. -/
theorem message_stub_decode_witness :
    decodeMessage (.obj sampleStubFields) = .ok { sampleHydrated with text := "" } ∧
    ("markdown" ∉ keys sampleStubFields → sampleHydrated.markdown = none) ∧
    ("html" ∉ keys sampleStubFields → sampleHydrated.html = none) :=
  message_stub_decode sampleStubFields "hello" sampleHydrated (by decide) rfl

/-! ### Digit-level lemmas for the RFC3339 round trip -/

theorem digitVal_digitChar (d : Nat) (h : d < 10) :
    digitVal? (digitChar d) = some d := by
  interval_cases d <;> rfl

theorem padList_length : ∀ (k v : Nat), (padList k v).length = k := by
  intro k
  induction k with
  | zero => intro v; rfl
  | succ k ih => intro v; simp [padList, ih]

theorem parseDigitsAux_pad :
    ∀ (k v a : Nat) (rest : List Char), v < 10 ^ k →
      parseDigitsAux k a (padDigits k v ++ rest) = some (a * 10 ^ k + v, rest) := by
  intro k
  induction k with
  | zero =>
    intro v a rest hv
    have hv0 : v = 0 := by omega
    subst hv0
    simp [padDigits, padList, parseDigitsAux]
  | succ k ih =>
    intro v a rest hv
    have hq : v / 10 ^ k < 10 := by
      rw [Nat.div_lt_iff_lt_mul (Nat.pos_pow_of_pos k (by omega))]
      calc v < 10 ^ (k + 1) := hv
        _ = 10 * 10 ^ k := by ring
    have hr : v % 10 ^ k < 10 ^ k := Nat.mod_lt v (Nat.pos_pow_of_pos k (by omega))
    simp only [padDigits, padList, List.map_cons, List.cons_append, parseDigitsAux,
      digitVal_digitChar (v / 10 ^ k) hq]
    have hstep := ih (v % 10 ^ k) (a * 10 + v / 10 ^ k) rest hr
    rw [padDigits] at hstep
    simp only [List.append_eq]
    rw [hstep]
    have hdm := Nat.div_add_mod v (10 ^ k)
    congr 2
    calc (a * 10 + v / 10 ^ k) * 10 ^ k + v % 10 ^ k
        = a * (10 ^ k * 10) + (10 ^ k * (v / 10 ^ k) + v % 10 ^ k) := by ring
      _ = a * 10 ^ (k + 1) + v := by rw [hdm, pow_succ]

theorem parseDigits_pad (k v : Nat) (rest : List Char) (h : v < 10 ^ k) :
    parseDigits k (padDigits k v ++ rest) = some (v, rest) := by
  rw [parseDigits, parseDigitsAux_pad k v 0 rest h]
  simp

theorem expectChar_cons (c : Char) (rest : List Char) :
    expectChar c (c :: rest) = some rest := by
  simp [expectChar]

theorem expectT_cons (rest : List Char) : expectT ('T' :: rest) = some rest := by
  simp [expectT]

theorem takeDigits_pad :
    ∀ (k v : Nat) (tail : List Char), v < 10 ^ k →
      takeDigits (padDigits k v ++ '+' :: tail) = (padList k v, '+' :: tail) := by
  intro k
  induction k with
  | zero =>
    intro v tail _
    simp [padDigits, padList, takeDigits, digitVal?]
  | succ k ih =>
    intro v tail hv
    have hq : v / 10 ^ k < 10 := by
      rw [Nat.div_lt_iff_lt_mul (Nat.pos_pow_of_pos k (by omega))]
      calc v < 10 ^ (k + 1) := hv
        _ = 10 * 10 ^ k := by ring
    have hr : v % 10 ^ k < 10 ^ k := Nat.mod_lt v (Nat.pos_pow_of_pos k (by omega))
    simp only [padDigits, padList, List.map_cons, List.cons_append, takeDigits,
      digitVal_digitChar (v / 10 ^ k) hq]
    have hstep := ih (v % 10 ^ k) tail hr
    rw [padDigits] at hstep
    simp only [List.append_eq]
    rw [hstep]

theorem foldl_padList :
    ∀ (k v a : Nat), v < 10 ^ k →
      List.foldl (fun a d => a * 10 + d) a (padList k v) = a * 10 ^ k + v := by
  intro k
  induction k with
  | zero =>
    intro v a hv
    have hv0 : v = 0 := by omega
    subst hv0
    simp [padList]
  | succ k ih =>
    intro v a hv
    have hr : v % 10 ^ k < 10 ^ k := Nat.mod_lt v (Nat.pos_pow_of_pos k (by omega))
    simp only [padList, List.foldl_cons]
    rw [ih (v % 10 ^ k) (a * 10 + v / 10 ^ k) hr]
    have hdm := Nat.div_add_mod v (10 ^ k)
    calc (a * 10 + v / 10 ^ k) * 10 ^ k + v % 10 ^ k
        = a * (10 ^ k * 10) + (10 ^ k * (v / 10 ^ k) + v % 10 ^ k) := by ring
      _ = a * 10 ^ (k + 1) + v := by rw [hdm, pow_succ]

theorem digitsVal_padList (k v : Nat) (h : v < 10 ^ k) :
    digitsVal (padList k v) = v := by
  rw [digitsVal, foldl_padList k v 0 h]
  simp

theorem fracValue_padList (k v : Nat) (hk : k ≤ 9) (hv : v < 10 ^ k) :
    fracValue (padList k v) = v * 10 ^ (9 - k) := by
  rw [fracValue, List.take_of_length_le (by rw [padList_length]; omega),
    digitsVal_padList k v hv, padList_length, Nat.min_eq_right hk]

theorem daysInMonth_le (y : Int) (m : Nat) : daysInMonth y m ≤ 31 := by
  unfold daysInMonth
  split <;> first | omega | (split_ifs <;> omega)

theorem parseNanos_pad (k v : Nat) (tail : List Char) (hk : 1 ≤ k) (hk9 : k ≤ 9)
    (hv : v < 10 ^ k) :
    parseNanos (padDigits k v ++ '+' :: tail) = some (v * 10 ^ (9 - k), '+' :: tail) := by
  rw [parseNanos, takeDigits_pad k v tail hv]
  have hne : (padList k v).isEmpty = false := by
    cases k with
    | zero => exact absurd hk (by omega)
    | succ k' => rfl
  simp [hne, fracValue_padList k v hk9 hv]

theorem parseFracStep_print (n : Nat) (tail : List Char) (hn : n < 1000000000) :
    parseFracStep (printFrac n ++ '+' :: tail) = some (n, '+' :: tail) := by
  by_cases h0 : n = 0
  · subst h0
    rfl
  rw [printFrac, if_neg h0]
  by_cases h6 : n % 1000000 = 0
  · rw [if_pos h6]
    rw [List.cons_append, parseFracStep, parseNanos_pad 3 (n / 1000000) tail
      (by omega) (by omega) (by omega)]
    congr 2
    have := Nat.div_mul_cancel (Nat.dvd_of_mod_eq_zero h6)
    simpa using this
  rw [if_neg h6]
  by_cases h3 : n % 1000 = 0
  · rw [if_pos h3]
    rw [List.cons_append, parseFracStep, parseNanos_pad 6 (n / 1000) tail
      (by omega) (by omega) (by omega)]
    congr 2
    have := Nat.div_mul_cancel (Nat.dvd_of_mod_eq_zero h3)
    simpa using this
  rw [if_neg h3]
  rw [List.cons_append, parseFracStep, parseNanos_pad 9 n tail
    (by omega) (by omega) (by omega)]
  simp

theorem parseOffset_zulu :
    parseOffset ('+' :: '0' :: '0' :: ':' :: '0' :: '0' :: []) = some (0, []) := by
  decide

/-- The validity check, spelled out. -/
theorem isValid_iff (t : NaiveDateTime) :
    t.isValid = true ↔
      (1 ≤ t.month ∧ t.month ≤ 12 ∧ 1 ≤ t.day ∧ t.day ≤ daysInMonth t.year t.month ∧
        t.hour ≤ 23 ∧ t.minute ≤ 59 ∧ t.second ≤ 60 ∧ t.nano < 1000000000) := by
  simp [NaiveDateTime.isValid, Bool.and_eq_true, decide_eq_true_eq, and_assoc]

/-- Parsing the printed `full-date`. -/
theorem parseDate_print (y mo d : Nat) (rest : List Char)
    (hy : y < 10 ^ 4) (hmo : mo < 10 ^ 2) (hd : d < 10 ^ 2) :
    parseDate (padDigits 4 y ++ '-' :: (padDigits 2 mo ++ '-' :: (padDigits 2 d ++ rest))) =
      some ((y, mo, d), rest) := by
  rw [parseDate, parseDigits_pad 4 y _ hy]
  simp only [Option.some_bind]
  rw [expectChar_cons]
  simp only [Option.some_bind]
  rw [parseDigits_pad 2 mo _ hmo]
  simp only [Option.some_bind]
  rw [expectChar_cons]
  simp only [Option.some_bind]
  rw [parseDigits_pad 2 d _ hd]
  simp only [Option.some_bind]

/-- Parsing the printed `HH:MM:SS`. -/
theorem parseTime_print (hh mi sec : Nat) (rest : List Char)
    (hhh : hh < 10 ^ 2) (hmi : mi < 10 ^ 2) (hsec : sec < 10 ^ 2) :
    parseTime (padDigits 2 hh ++ ':' :: (padDigits 2 mi ++ ':' :: (padDigits 2 sec ++ rest))) =
      some ((hh, mi, sec), rest) := by
  rw [parseTime, parseDigits_pad 2 hh _ hhh]
  simp only [Option.some_bind]
  rw [expectChar_cons]
  simp only [Option.some_bind]
  rw [parseDigits_pad 2 mi _ hmi]
  simp only [Option.some_bind]
  rw [expectChar_cons]
  simp only [Option.some_bind]
  rw [parseDigits_pad 2 sec _ hsec]
  simp only [Option.some_bind]

set_option maxHeartbeats 1000000 in
/-- Printing a valid UTC date-time with a 4-digit year and parsing it back
recovers it exactly, with a zero offset. -/
theorem parseRFC3339_print (t : NaiveDateTime) (hv : t.isValid = true)
    (hy0 : 0 ≤ t.year) (hy1 : t.year ≤ 9999) :
    parseRFC3339 (printRFC3339 t) = some (t, 0) := by
  obtain ⟨y, mo, d, hh, mi, sec, na⟩ := t
  have hvp := (isValid_iff _).1 hv
  simp only at hvp hy0 hy1
  obtain ⟨hb1, hb2, hb3, hb4, hb5, hb6, hb7, hb8⟩ := hvp
  have hy4 : y.toNat < 10 ^ 4 := by omega
  have hmo2 : mo < 10 ^ 2 := by omega
  have hd2 : d < 10 ^ 2 := by
    have := daysInMonth_le y mo
    omega
  have hhh2 : hh < 10 ^ 2 := by omega
  have hmi2 : mi < 10 ^ 2 := by omega
  have hsec2 : sec < 10 ^ 2 := by omega
  rw [printRFC3339, printYear]
  simp only
  rw [if_pos (show (0 : Int) ≤ y ∧ y ≤ 9999 from ⟨hy0, hy1⟩)]
  simp only [List.cons_append, List.append_assoc, List.nil_append]
  rw [parseRFC3339]
  rw [parseDate_print y.toNat mo d _ hy4 hmo2 hd2]
  simp only [Option.some_bind]
  rw [expectT_cons]
  simp only [Option.some_bind]
  rw [parseTime_print hh mi sec _ hhh2 hmi2 hsec2]
  simp only [Option.some_bind]
  rw [parseFracStep_print na _ hb8]
  simp only [Option.some_bind]
  rw [parseOffset_zulu]
  simp only [Option.some_bind]
  rw [if_pos]
  · rw [Int.toNat_of_nonneg hy0]
  · exact ⟨trivial, by rw [show ((y.toNat : Int)) = y from Int.toNat_of_nonneg hy0]; exact hv⟩

theorem one_le_daysInMonth (y : Int) (m : Nat) (h1 : 1 ≤ m) (h2 : m ≤ 12) :
    1 ≤ daysInMonth y m := by
  interval_cases m <;> simp only [daysInMonth] <;> first | omega | (split_ifs <;> omega)

/-- Stepping back one day preserves calendar validity. -/
theorem prevDay_valid (y : Int) (m d : Nat) (h1 : 1 ≤ m) (h2 : m ≤ 12)
    (h3 : 1 ≤ d) (h4 : d ≤ daysInMonth y m) :
    1 ≤ (prevDay y m d).2.1 ∧ (prevDay y m d).2.1 ≤ 12 ∧
      1 ≤ (prevDay y m d).2.2 ∧
      (prevDay y m d).2.2 ≤ daysInMonth (prevDay y m d).1 (prevDay y m d).2.1 := by
  rw [prevDay]
  split_ifs with ha hb <;> dsimp only
  · exact ⟨h1, h2, by omega, by omega⟩
  · exact ⟨by omega, by omega,
      one_le_daysInMonth y (m - 1) (by omega) (by omega), le_refl _⟩
  · refine ⟨by omega, by omega, by omega, ?_⟩
    simp [daysInMonth]

/-- Stepping forward one day preserves calendar validity. -/
theorem nextDay_valid (y : Int) (m d : Nat) (h1 : 1 ≤ m) (h2 : m ≤ 12)
    (h3 : 1 ≤ d) (h4 : d ≤ daysInMonth y m) :
    1 ≤ (nextDay y m d).2.1 ∧ (nextDay y m d).2.1 ≤ 12 ∧
      1 ≤ (nextDay y m d).2.2 ∧
      (nextDay y m d).2.2 ≤ daysInMonth (nextDay y m d).1 (nextDay y m d).2.1 := by
  rw [nextDay]
  split_ifs with ha hb <;> dsimp only
  · exact ⟨h1, h2, by omega, by omega⟩
  · exact ⟨by omega, by omega, by omega,
      one_le_daysInMonth y (m + 1) (by omega) (by omega)⟩
  · refine ⟨by omega, by omega, by omega, ?_⟩
    simp [daysInMonth]

/-- UTC normalization of a valid local date-time by a sub-day offset yields
a valid date-time. -/
theorem subOffset_isValid (t : NaiveDateTime) (off : Int) (hv : t.isValid = true)
    (ho1 : -1440 < off) (ho2 : off < 1440) :
    (subOffsetMinutes t off).isValid = true := by
  obtain ⟨y, mo, d, hh, mi, sec, na⟩ := t
  have hvp := (isValid_iff _).1 hv
  simp only at hvp
  obtain ⟨hb1, hb2, hb3, hb4, hb5, hb6, hb7, hb8⟩ := hvp
  rw [isValid_iff]
  rw [subOffsetMinutes]
  simp only
  split_ifs with hA hB <;> dsimp only
  · obtain ⟨hp1, hp2, hp3, hp4⟩ := prevDay_valid y mo d hb1 hb2 hb3 hb4
    exact ⟨hp1, hp2, hp3, hp4, by omega, by omega, hb7, hb8⟩
  · exact ⟨hb1, hb2, hb3, hb4, by omega, by omega, hb7, hb8⟩
  · obtain ⟨hp1, hp2, hp3, hp4⟩ := nextDay_valid y mo d hb1 hb2 hb3 hb4
    exact ⟨hp1, hp2, hp3, hp4, by omega, by omega, hb7, hb8⟩

/-- Normalizing by a zero offset is the identity on valid date-times. -/
theorem subOffsetMinutes_zero (t : NaiveDateTime) (hv : t.isValid = true) :
    subOffsetMinutes t 0 = t := by
  obtain ⟨y, mo, d, hh, mi, sec, na⟩ := t
  have hvp := (isValid_iff _).1 hv
  simp only at hvp
  obtain ⟨hb1, hb2, hb3, hb4, hb5, hb6, hb7, hb8⟩ := hvp
  rw [subOffsetMinutes]
  simp only
  rw [if_neg (by omega), if_pos (by omega)]
  simp only [NaiveDateTime.mk.injEq, true_and, and_true]
  constructor <;> omega

/-- A successfully parsed offset is strictly inside one day. -/
theorem parseOffset_bounds (cs : List Char) (off : Int) (rest : List Char)
    (h : parseOffset cs = some (off, rest)) : -1440 < off ∧ off < 1440 := by
  cases cs with
  | nil => simp [parseOffset] at h
  | cons c tail =>
    simp only [parseOffset] at h
    split_ifs at h
    all_goals try exact Option.noConfusion h
    all_goals try (injection h with h; rw [Prod.mk.injEq] at h; omega)
    all_goals simp only [Option.bind_eq_some] at h
    all_goals obtain ⟨⟨hh, r1⟩, _, r2, _, ⟨mm, r3⟩, _, hfin⟩ := h
    all_goals simp only at hfin
    all_goals split_ifs at hfin
    all_goals try exact Option.noConfusion hfin
    all_goals (injection hfin with hf; rw [Prod.mk.injEq] at hf; omega)

/-- A successful parse yields a valid local date-time and a sub-day
offset. -/
theorem parseRFC3339_ok (cs : List Char) (t : NaiveDateTime) (off : Int)
    (h : parseRFC3339 cs = some (t, off)) :
    t.isValid = true ∧ -1440 < off ∧ off < 1440 := by
  rw [parseRFC3339] at h
  simp only [Option.bind_eq_some] at h
  obtain ⟨⟨ymd, cs1⟩, _, cs2, _, ⟨hms, cs3⟩, _, ⟨na, cs4⟩, _,
    ⟨off2, cs5⟩, hoff, hfin⟩ := h
  simp only at hfin
  split_ifs at hfin with hcond
  · injection hfin with hf
    rw [Prod.mk.injEq] at hf
    obtain ⟨hf1, hf2⟩ := hf
    refine ⟨?_, ?_⟩
    · rw [← hf1]; exact hcond.2
    · rw [← hf2]; exact parseOffset_bounds cs4 off2 cs5 hoff

/-- A successfully deserialized timestamp is a valid UTC date-time. -/
theorem deserialize_timestamp_isValid (s : String) (t : NaiveDateTime)
    (h : deserialize_timestamp s = some t) : t.isValid = true := by
  rw [deserialize_timestamp] at h
  cases hp : parseRFC3339 s.toList with
  | none => rw [hp] at h; simp at h
  | some p =>
    obtain ⟨t0, off⟩ := p
    rw [hp] at h
    simp only [Option.map_some'] at h
    injection h with h
    obtain ⟨hval, ho1, ho2⟩ := parseRFC3339_ok s.toList t0 off hp
    rw [← h]
    exact subOffset_isValid t0 off hval ho1 ho2

/-- C9 (amended): identifier fields round-trip exactly (serde-transparent
newtype strings), and a timestamp decoded from RFC3339 text — normalized to
UTC internally — re-serializes to text denoting the same instant (decoding
it again gives the same UTC date-time), provided the UTC-normalized year
still fits the unsigned 4-digit year of `to_rfc3339`.  (Outside 0–9999
chrono prints a signed year that `parse_from_rfc3339` cannot re-read; see
the counterexample.) -/
theorem timestamp_roundtrip (s : String) (t : NaiveDateTime)
    (hde : deserialize_timestamp s = some t)
    (h0 : 0 ≤ t.year) (h1 : t.year ≤ 9999) :
    deserialize_timestamp (serialize_timestamp t) = some t ∧
    (∀ j x, decodeString j = .ok x → encodeString x = j) := by
  constructor
  · have hv := deserialize_timestamp_isValid s t hde
    rw [serialize_timestamp, deserialize_timestamp]
    rw [show String.toList (String.mk (printRFC3339 t)) = printRFC3339 t from rfl]
    rw [parseRFC3339_print t hv h0 h1]
    simp only [Option.map_some']
    rw [subOffsetMinutes_zero t hv]
  · intro j x hj
    cases j <;> simp only [decodeString] at hj
    all_goals first
      | (injection hj with hj; rw [encodeString, hj])
      | exact absurd hj (by simp)

/-- Witness for C9's amended round trip at a concrete Spark-style
timestamp. -/
theorem timestamp_roundtrip_witness :
    deserialize_timestamp
        (serialize_timestamp (⟨2015, 10, 18, 14, 26, 16, 0⟩ : NaiveDateTime)) =
      some ⟨2015, 10, 18, 14, 26, 16, 0⟩ ∧
    (∀ j x, decodeString j = .ok x → encodeString x = j) :=
  timestamp_roundtrip "2015-10-18T14:26:16.000Z" ⟨2015, 10, 18, 14, 26, 16, 0⟩
    rfl (by decide) (by decide)

/-- Counterexample to C9 as stated: the valid payload
`0000-01-01T00:00:00+01:00` decodes (UTC-normalizing to year -1), but
re-serializing prints chrono's signed year `-0001-12-31T23:00:00+00:00`,
which `parse_from_rfc3339` rejects — the claimed decode→re-encode round
trip fails for this valid input. -/
theorem timestamp_roundtrip_cex :
    deserialize_timestamp "0000-01-01T00:00:00+01:00" =
      some ⟨-1, 12, 31, 23, 0, 0, 0⟩ ∧
    deserialize_timestamp
      (serialize_timestamp (⟨-1, 12, 31, 23, 0, 0, 0⟩ : NaiveDateTime)) = none := by
  constructor
  · rfl
  · rfl

end Spark
